import Mathlib

/-!
# Verification of the datadancer-visualizer merge-and-layout core

Shallow embedding of the workflow visualizer's core logic:

* the state merger `combineWorkflowData` (identical in
  `src/utils/workflowParser.ts` and the unnamed parser variant);
* the error-handler resolver `matchesErrorRef` / `findTriggeredErrorHandler`
  (only in the unnamed variant, namespace `V2`);
* the layout traversal `layoutStates` of the unnamed variant (namespace `V2`),
  modelled as a fuel-indexed worklist loop whose worklist discipline
  (children pushed in front of the remaining siblings) reproduces the
  JavaScript depth-first recursion order exactly;
* the per-state edge construction of both parser variants
  (`V1` = `src/utils/workflowParser.ts`, `V2` = the unnamed variant).

JavaScript truthiness on optional string fields (`error`, `matchedCondition`,
string transitions) is modelled explicitly by `jsStrTruthy`: an absent field
and the empty string are both falsy.  Opaque payload fields (`input`,
`output`, action `arguments`, definition `actions`) carry no behavior in the
embedded functions and are omitted from the records.  Timestamp parsing
(`new Date(s).getTime()`) is an external runtime primitive and is passed in
as an explicit function argument `getTime`.
-/

/-- An entry of an execution record's `actions` array
(`WorkflowAction` in `types.ts`; opaque payloads omitted). -/
structure WorkflowAction where
  activityName : String
  startTime : String
  endTime : String
  error : Option String
deriving Repr, DecidableEq

/-- One executed state of a trace (`WorkflowState` in `types.ts`;
opaque `input` and `output` payloads omitted). -/
structure WorkflowState where
  name : String
  type : String
  startTime : String
  endTime : String
  actions : Option (List WorkflowAction)
  error : Option String
  matchedCondition : Option String
deriving Repr, DecidableEq

/-- A trace (`WorkflowDebugData` in `types.ts`). -/
structure WorkflowDebugData where
  states : List WorkflowState
deriving Repr, DecidableEq

/-- A transition reference, which in the source is either a bare state name
or an object `{nextState}`. -/
inductive TransitionRef where
  | obj (nextState : String)
  | str (name : String)
deriving Repr, DecidableEq

/-- The `{nextState}` object inside a switch condition's `transition`. -/
structure SwitchTransition where
  nextState : String
deriving Repr, DecidableEq

/-- A switch data condition (`WorkflowCondition` in `types.ts`). -/
structure WorkflowCondition where
  name : String
  condition : String
  transition : SwitchTransition
deriving Repr, DecidableEq

/-- A switch state's `defaultCondition` object. -/
structure DefaultCondition where
  transition : SwitchTransition
deriving Repr, DecidableEq

/-- A declared error handler (`WorkflowOnError` in `types.ts`). -/
structure WorkflowOnError where
  errorRef : String
  transition : TransitionRef
deriving Repr, DecidableEq

/-- A declared state of a workflow definition (`WorkflowDefinitionState` in
`types.ts`; the boolean `end` flag is called `endFlag` because `end` is a
Lean keyword; the definition-side `actions` array is opaque and omitted). -/
structure WorkflowDefinitionState where
  name : String
  type : String
  transition : Option TransitionRef
  dataConditions : Option (List WorkflowCondition)
  defaultCondition : Option DefaultCondition
  onErrors : Option (List WorkflowOnError)
  endFlag : Bool
deriving Repr, DecidableEq

/-- A workflow definition (`WorkflowDefinition` in `types.ts`). -/
structure WorkflowDefinition where
  version : String
  specVersion : String
  id : String
  name : String
  description : String
  start : String
  states : List WorkflowDefinitionState
deriving Repr, DecidableEq

/-- A merged state (`CombinedWorkflowState` in `types.ts`). -/
structure CombinedWorkflowState where
  name : String
  type : String
  definition : WorkflowDefinitionState
  execution : Option WorkflowState
  wasExecuted : Bool
  hasError : Bool
  duration : Int
deriving Repr, DecidableEq

/-- The merge output (`CombinedWorkflowData` in `types.ts`). -/
structure CombinedWorkflowData where
  definition : WorkflowDefinition
  execution : Option WorkflowDebugData
  states : List CombinedWorkflowState
  startState : String
deriving Repr, DecidableEq

/-- JavaScript truthiness of an optional string field: absent and `""` are
falsy, every other string is truthy. -/
def jsStrTruthy : Option String → Bool
  | none => false
  | some s => s != ""

/-- JavaScript truthiness of a transition value `{nextState} | string`:
an object is always truthy, a bare string only when non-empty. -/
def jsTransTruthy : TransitionRef → Bool
  | TransitionRef.obj _ => true
  | TransitionRef.str s => s != ""

/-- `getNextStateName` (identical in both parser variants): the normal next
state of a definition state, `none` when the `transition` field is absent or
falsy, when the state is flagged `end`, or when the object form carries a
falsy `nextState`. -/
def getNextStateName (state : WorkflowDefinitionState) : Option String :=
  match state.transition with
  | none => none
  | some t =>
      if !jsTransTruthy t || state.endFlag then none
      else
        match t with
        | TransitionRef.str s => some s
        | TransitionRef.obj ns => if ns == "" then none else some ns

/-- `getErrorHandlerNextState` from the unnamed parser variant: the target of
an error handler's transition in either syntactic form. -/
def getErrorHandlerNextState (errorHandler : WorkflowOnError) : String :=
  match errorHandler.transition with
  | TransitionRef.str s => s
  | TransitionRef.obj ns => ns

/-- Character-list model of `String.prototype.includes`:
`containsChars needle hay` is true iff `needle` occurs contiguously in
`hay`; the empty needle occurs in every haystack. -/
def containsChars (needle : List Char) : List Char → Bool
  | [] => needle.isEmpty
  | c :: rest => needle.isPrefixOf (c :: rest) || containsChars needle rest

/-- Lower-cased character list of a string (model of `toLowerCase`). -/
def strLower (s : String) : List Char := s.data.map Char.toLower

/-- `hay.toLowerCase().includes(needle.toLowerCase())` without the source's
empty-string guards; this is the spec's plain notion of "occurs as a
case-insensitive substring". -/
def containsCI (hay needle : String) : Bool :=
  containsChars (strLower needle) (strLower hay)

/-- `matchesErrorRef` from the unnamed parser variant: false when either
string is empty (the JS `!errorMessage || !errorRef` guard), otherwise
case-insensitive substring containment. -/
def matchesErrorRef (errorMessage : String) (errorRef : String) : Bool :=
  if errorMessage == "" || errorRef == "" then false
  else containsCI errorMessage errorRef

/-- The effective error message extracted by `findTriggeredErrorHandler`:
`execution.error || execution.actions?.find(a => a.error)?.error` with
JS truthiness. -/
def effectiveErrorMessage (ex : WorkflowState) : Option String :=
  if jsStrTruthy ex.error then ex.error
  else
    match ex.actions with
    | none => none
    | some acts =>
        match acts.find? (fun a => jsStrTruthy a.error) with
        | some a => a.error
        | none => none

/-- `findTriggeredErrorHandler` from the unnamed parser variant: given a
merged state, the error handler attributed to its recorded error, if any.
The first scan skips the `DefaultErrorRef` sentinel and takes the first
handler whose `errorRef` passes `matchesErrorRef`; the second scan looks for
the `DefaultErrorRef` fallback. -/
def findTriggeredErrorHandler (state : CombinedWorkflowState) :
    Option (WorkflowOnError × String) :=
  if !state.hasError then none
  else
    match state.definition.onErrors, state.execution with
    | some handlers, some ex =>
        match effectiveErrorMessage ex with
        | none => none
        | some msg =>
            -- the JS `if (!errorMessage) return null` also rejects ""
            if msg == "" then none
            else
              match handlers.find?
                  (fun h => h.errorRef != "DefaultErrorRef" &&
                            matchesErrorRef msg h.errorRef) with
              | some h => some (h, getErrorHandlerNextState h)
              | none =>
                  match handlers.find? (fun h => h.errorRef == "DefaultErrorRef") with
                  | some h => some (h, getErrorHandlerNextState h)
                  | none => none
    | _, _ => none

/-- The `executionMap.get(name)` lookup built by `combineWorkflowData` via
repeated `Map.set`: the last trace entry with the given name wins. -/
def execLookup (execution : Option WorkflowDebugData) (n : String) :
    Option WorkflowState :=
  match execution with
  | none => none
  | some dbg =>
      dbg.states.foldl (fun acc s => if s.name == n then some s else acc) none

/-- The `hasError` computation of `combineWorkflowData` on a present
execution record: `!!(executionState.error || executionState.actions?.some(a => a.error))`. -/
def stateHasError (ex : WorkflowState) : Bool :=
  jsStrTruthy ex.error ||
    (match ex.actions with
     | some acts => acts.any (fun a => jsStrTruthy a.error)
     | none => false)

/-- The duration computation of `combineWorkflowData`: defined only when both
timestamp strings are truthy; `getTime` stands for the JS
`new Date(s).getTime()` runtime primitive. -/
def combinedDuration (getTime : String → Int) (ex : WorkflowState) : Int :=
  if ex.startTime != "" && ex.endTime != "" then
    getTime ex.endTime - getTime ex.startTime
  else 0

/-- The per-definition-state body of `combineWorkflowData`'s `map`. -/
def combineOne (getTime : String → Int) (execution : Option WorkflowDebugData)
    (defState : WorkflowDefinitionState) : CombinedWorkflowState :=
  let executionState := execLookup execution defState.name
  let wasExecuted := executionState.isSome
  let hasError :=
    match executionState with
    | some ex => stateHasError ex
    | none => false
  let duration :=
    match executionState with
    | some ex => combinedDuration getTime ex
    | none => 0
  { name := defState.name
    type := defState.type
    definition := defState
    execution := executionState
    wasExecuted := wasExecuted
    hasError := hasError
    duration := duration }

/-- `combineWorkflowData` (the state merger, identical in both source
variants): one merged state per definition state, in declaration order. -/
def combineWorkflowData (getTime : String → Int) (definition : WorkflowDefinition)
    (execution : Option WorkflowDebugData) : CombinedWorkflowData :=
  { definition := definition
    execution := execution
    states := definition.states.map (combineOne getTime execution)
    startState := definition.start }

/-- A rendering-ready edge: the fields of the `Edge` objects the parsers
construct, keeping the style fields that encode the executed / unexecuted /
error classification (`animated`, `stroke`, `strokeWidth`, `strokeDasharray`)
and dropping the purely cosmetic `labelStyle`.  An edge is rendered as the
taken ("executed" / "error-triggered") path exactly when `animated` is true. -/
structure REdge where
  id : String
  source : String
  target : String
  label : Option String
  animated : Bool
  stroke : String
  strokeWidth : Nat
  strokeDasharray : Option String
deriving Repr, DecidableEq

namespace V1

/-- Switch data-condition edge of `parseCombinedWorkflowData` in
`src/utils/workflowParser.ts`. -/
def condEdge (s : CombinedWorkflowState) (c : WorkflowCondition) : REdge :=
  let isExecutedPath :=
    s.wasExecuted && ((s.execution.bind WorkflowState.matchedCondition) == some c.name)
  { id := "edge-" ++ s.name ++ "-" ++ c.name
    source := "state-" ++ s.name
    target := "state-" ++ c.transition.nextState
    label := some c.name
    animated := isExecutedPath
    stroke := if isExecutedPath then "#f59e0b" else "#d1d5db"
    strokeWidth := if isExecutedPath then 3 else 1
    strokeDasharray := if !isExecutedPath then some "5,5" else none }

/-- Default-condition edge of `src/utils/workflowParser.ts`: the default is
taken when `matchedCondition` is falsy (absent or empty). -/
def defaultEdge (s : CombinedWorkflowState) : Option REdge :=
  match s.definition.defaultCondition with
  | none => none
  | some dc =>
      let isExecutedPath :=
        s.wasExecuted && !jsStrTruthy (s.execution.bind WorkflowState.matchedCondition)
      some
        { id := "edge-" ++ s.name ++ "-default"
          source := "state-" ++ s.name
          target := "state-" ++ dc.transition.nextState
          label := some "default"
          animated := isExecutedPath
          stroke := if isExecutedPath then "#f59e0b" else "#d1d5db"
          strokeWidth := if isExecutedPath then 3 else 1
          strokeDasharray := if !isExecutedPath then some "5,5" else none }

/-- Normal-transition edge of `src/utils/workflowParser.ts`. -/
def normalEdge (s : CombinedWorkflowState) : Option REdge :=
  match getNextStateName s.definition with
  | none => none
  | some ns =>
      let isExecutedPath := s.wasExecuted
      let strokeColor :=
        if s.hasError then "#ef4444"
        else if !isExecutedPath then "#d1d5db"
        else "#10b981"
      some
        { id := "edge-" ++ s.name ++ "-" ++ ns
          source := "state-" ++ s.name
          target := "state-" ++ ns
          label := none
          animated := isExecutedPath && !s.hasError
          stroke := strokeColor
          strokeWidth := if isExecutedPath then 2 else 1
          strokeDasharray := if !isExecutedPath || s.hasError then some "5,5" else none }

/-- All edges emitted for one merged state by `src/utils/workflowParser.ts`
(this variant emits no error-handler edges at all). -/
def edgesForState (s : CombinedWorkflowState) : List REdge :=
  if s.definition.type == "switch" then
    ((s.definition.dataConditions.getD []).map (condEdge s)) ++ (defaultEdge s).toList
  else
    (normalEdge s).toList

end V1

namespace V2

/-- Switch data-condition edge of the unnamed parser variant
(identical to `V1.condEdge` except `strokeWidth` 2 instead of 3). -/
def condEdge (s : CombinedWorkflowState) (c : WorkflowCondition) : REdge :=
  let isExecutedPath :=
    s.wasExecuted && ((s.execution.bind WorkflowState.matchedCondition) == some c.name)
  { id := "edge-" ++ s.name ++ "-" ++ c.name
    source := "state-" ++ s.name
    target := "state-" ++ c.transition.nextState
    label := some c.name
    animated := isExecutedPath
    stroke := if isExecutedPath then "#f59e0b" else "#d1d5db"
    strokeWidth := if isExecutedPath then 2 else 1
    strokeDasharray := if !isExecutedPath then some "5,5" else none }

/-- Default-condition edge of the unnamed parser variant: the default is
taken when `matchedCondition` equals the literal string `"default"`. -/
def defaultEdge (s : CombinedWorkflowState) : Option REdge :=
  match s.definition.defaultCondition with
  | none => none
  | some dc =>
      let isExecutedPath :=
        s.wasExecuted && ((s.execution.bind WorkflowState.matchedCondition) == some "default")
      some
        { id := "edge-" ++ s.name ++ "-default"
          source := "state-" ++ s.name
          target := "state-" ++ dc.transition.nextState
          label := some "default"
          animated := isExecutedPath
          stroke := if isExecutedPath then "#f59e0b" else "#d1d5db"
          strokeWidth := if isExecutedPath then 2 else 1
          strokeDasharray := if !isExecutedPath then some "5,5" else none }

/-- Normal-transition edge of the unnamed parser variant: the executed
classification additionally requires the absence of an error, and an
errored state's normal edge is drawn in the unexecuted (gray, dashed)
style. -/
def normalEdge (s : CombinedWorkflowState) : Option REdge :=
  match getNextStateName s.definition with
  | none => none
  | some ns =>
      let isExecutedPath := s.wasExecuted && !s.hasError
      let strokeColor :=
        if s.hasError then "#d1d5db"
        else if !s.wasExecuted then "#d1d5db"
        else "#10b981"
      some
        { id := "edge-" ++ s.name ++ "-" ++ ns
          source := "state-" ++ s.name
          target := "state-" ++ ns
          label := none
          animated := isExecutedPath
          stroke := strokeColor
          strokeWidth := if isExecutedPath then 2 else 1
          strokeDasharray := if !isExecutedPath then some "5,5" else none }

/-- The red, animated edge to the target of the triggered error handler. -/
def triggeredEdge (s : CombinedWorkflowState) (h : WorkflowOnError)
    (ns : String) : REdge :=
  { id := "edge-" ++ s.name ++ "-error-" ++ h.errorRef
    source := "state-" ++ s.name
    target := "state-" ++ ns
    label := some ("error: " ++ h.errorRef)
    animated := true
    stroke := "#ef4444"
    strokeWidth := 2
    strokeDasharray := some "3,3" }

/-- The gray, dashed edge for a declared but untriggered error handler. -/
def untriggeredEdge (s : CombinedWorkflowState) (h : WorkflowOnError) : REdge :=
  { id := "edge-" ++ s.name ++ "-error-unexecuted-" ++ h.errorRef
    source := "state-" ++ s.name
    target := "state-" ++ getErrorHandlerNextState h
    label := some ("error: " ++ h.errorRef)
    animated := false
    stroke := "#d1d5db"
    strokeWidth := 1
    strokeDasharray := some "5,5" }

/-- The error-handler edges of the unnamed parser variant: when a handler
triggered, its red edge followed by a gray edge per declared handler whose
`errorRef` differs from the triggered one; otherwise a gray edge per declared
handler. -/
def errorEdges (s : CombinedWorkflowState) : List REdge :=
  match findTriggeredErrorHandler s with
  | some t =>
      triggeredEdge s t.1 t.2 ::
        (match s.definition.onErrors with
         | some handlers =>
             (handlers.filter (fun h => h.errorRef != t.1.errorRef)).map
               (untriggeredEdge s)
         | none => [])
  | none =>
      match s.definition.onErrors with
      | some handlers => handlers.map (untriggeredEdge s)
      | none => []

/-- All edges emitted for one merged state by the unnamed parser variant. -/
def edgesForState (s : CombinedWorkflowState) : List REdge :=
  if s.definition.type == "switch" then
    ((s.definition.dataConditions.getD []).map (condEdge s)) ++ (defaultEdge s).toList
  else
    (normalEdge s).toList ++ errorEdges s

end V2

namespace V2

/-- The mutable traversal state of `layoutStates`: the `visited` set and the
`statePositions` map, the latter kept as the ordered log of `Map.set` calls
so that "assigned a position more than once" is observable as a duplicated
key. -/
structure LayoutSt where
  visited : List String
  positions : List (String × Nat × Nat)
deriving Repr, DecidableEq

/-- The `stateMap.get(name)` lookup built by repeated `Map.set` over the
merged state list: the last state with the given name wins. -/
def lookupState (stateMap : List CombinedWorkflowState) (n : String) :
    Option CombinedWorkflowState :=
  stateMap.foldl (fun acc s => if s.name == n then some s else acc) none

/-- The recursive calls `layoutStates` makes from one state, as
`(stateName, level, position)` triples in call order, with the argument
arithmetic of the unnamed parser variant: a switch recurses into its data
conditions (position offsets 0,1,…) then its default condition; any other
state recurses into its normal transition (same position) and then into each
declared error handler's target (position offsets `nextPosition + index`,
where `nextPosition` is 1 after a normal transition and 0 otherwise). -/
def childItems (s : CombinedWorkflowState) (level : Nat) (position : Nat) :
    List (String × Nat × Nat) :=
  if s.definition.type == "switch" then
    let conds := s.definition.dataConditions.getD []
    (conds.enum.map (fun p => (p.2.transition.nextState, level + 1, position + p.1))) ++
      (match s.definition.defaultCondition with
       | some dc => [(dc.transition.nextState, level + 1, position + conds.length)]
       | none => [])
  else
    match getNextStateName s.definition with
    | some ns =>
        (ns, level + 1, position) ::
          (s.definition.onErrors.getD []).enum.map
            (fun p => (getErrorHandlerNextState p.2, level + 1, position + 1 + p.1))
    | none =>
        (s.definition.onErrors.getD []).enum.map
          (fun p => (getErrorHandlerNextState p.2, level + 1, position + p.1))

/-- `layoutStates` as a worklist loop: popping `(name, level, position)`
first applies the `visited.has(stateName) || !stateMap.has(stateName)`
guard, then records `(level*400, position*250)` and pushes the state's
recursive calls in front of the remaining work, which reproduces the
JavaScript depth-first recursion (a child's whole subtree is processed,
against the updated `visited` set, before the next sibling).  The `fuel`
argument bounds the number of loop steps; `layoutRun` supplies enough fuel,
and `layoutLoop_fuel_irrelevant` shows any larger amount gives the same
result. -/
def layoutLoop (stateMap : List CombinedWorkflowState) :
    Nat → List (String × Nat × Nat) → LayoutSt → LayoutSt
  | _, [], st => st
  | 0, _ :: _, st => st
  | fuel + 1, (name, level, position) :: rest, st =>
      if name ∈ st.visited then layoutLoop stateMap fuel rest st
      else
        match lookupState stateMap name with
        | none => layoutLoop stateMap fuel rest st
        | some s =>
            layoutLoop stateMap fuel (childItems s level position ++ rest)
              { visited := name :: st.visited,
                positions := st.positions ++ [(name, (400 * level, 250 * position))] }

/-- Number of recursive calls a state would issue (independent of the level
and position arguments). -/
def childCount (s : CombinedWorkflowState) : Nat :=
  (childItems s 0 0).length

/-- Sum of `childCount` over the states whose name is not yet visited; the
step measure of the worklist loop. -/
def sumUnvisited (visited : List String) : List CombinedWorkflowState → Nat
  | [] => 0
  | s :: rest =>
      (if s.name ∈ visited then 0 else childCount s) + sumUnvisited visited rest

/-- Fuel that always suffices for a full traversal: one step for the initial
work item plus one step per recursive call any state could issue. -/
def layoutFuel (combined : CombinedWorkflowData) : Nat :=
  sumUnvisited [] combined.states + 1

/-- The full layout pass of the unnamed parser variant:
`layoutStates(combinedData.startState, new Set(), 0, 0)`. -/
def layoutRun (combined : CombinedWorkflowData) : LayoutSt :=
  layoutLoop combined.states (layoutFuel combined)
    [(combined.startState, 0, 0)] ⟨[], []⟩

/-- The node-creation loop: each merged state, in merge order, receives
`statePositions.get(state.name) || { x: index * 400, y: 0 }`. -/
def nodePositions (combined : CombinedWorkflowData) : List (String × Nat × Nat) :=
  let posMap := (layoutRun combined).positions
  combined.states.enum.map fun p =>
    (p.2.name,
      match posMap.lookup p.2.name with
      | some xy => xy
      | none => (400 * p.1, 0))

end V2

/-! ## General lemmas about the matcher and the resolver -/

/-- The empty needle occurs in every haystack. -/
theorem containsChars_nil (l : List Char) : containsChars [] l = true := by
  induction l with
  | nil => rfl
  | cons c rest ih => simp [containsChars, List.isPrefixOf]

/-- A successful `matchesErrorRef` needs a non-empty `errorRef`. -/
theorem matchesErrorRef_ref_ne_empty {m r : String}
    (h : matchesErrorRef m r = true) : r ≠ "" := by
  intro hr
  subst hr
  simp [matchesErrorRef] at h

/-- A successful `matchesErrorRef` needs a non-empty message. -/
theorem matchesErrorRef_msg_ne_empty {m r : String}
    (h : matchesErrorRef m r = true) : m ≠ "" := by
  intro hm
  subst hm
  simp [matchesErrorRef] at h

/-- Any handler returned by `findTriggeredErrorHandler` has a non-empty
`errorRef`: a specifically-matched handler passed `matchesErrorRef`, and the
fallback's `errorRef` is the literal `"DefaultErrorRef"`. -/
theorem triggered_errorRef_ne_empty (s : CombinedWorkflowState)
    (h : WorkflowOnError) (ns : String)
    (heq : findTriggeredErrorHandler s = some (h, ns)) : h.errorRef ≠ "" := by
  unfold findTriggeredErrorHandler at heq
  split at heq
  · exact absurd heq (by simp)
  · split at heq
    · rename_i handlers ex _
      split at heq
      · exact absurd heq (by simp)
      · split at heq
        · exact absurd heq (by simp)
        · split at heq
          · rename_i h0 hfind
            have hp := List.find?_some hfind
            simp only [Bool.and_eq_true] at hp
            obtain ⟨-, hmatch⟩ := hp
            have := matchesErrorRef_ref_ne_empty hmatch
            cases heq
            exact this
          · split at heq
            · rename_i h0 hfind
              have hp := List.find?_some hfind
              have : h0.errorRef = "DefaultErrorRef" := by
                simpa using hp
              cases heq
              simp [this]
            · exact absurd heq (by simp)
    · exact absurd heq (by simp)

/-! ## Concrete fixtures used by witnesses and counterexamples -/

/-- A specific handler whose `errorRef` matches "a TIMEOUT happened"
case-insensitively. -/
def fxTimeoutHandler : WorkflowOnError :=
  { errorRef := "Timeout", transition := TransitionRef.obj "H1" }

/-- A second specific handler that also matches the same message. -/
def fxCaseHandler : WorkflowOnError :=
  { errorRef := "timeOUT", transition := TransitionRef.obj "H2" }

/-- The `DefaultErrorRef` fallback handler. -/
def fxDefaultHandler : WorkflowOnError :=
  { errorRef := "DefaultErrorRef", transition := TransitionRef.str "HD" }

/-- An operation state declaring a normal transition and three handlers. -/
def fxErrDefState : WorkflowDefinitionState :=
  { name := "S", type := "operation", transition := some (TransitionRef.obj "N"),
    dataConditions := none, defaultCondition := none,
    onErrors := some [fxTimeoutHandler, fxCaseHandler, fxDefaultHandler],
    endFlag := false }

/-- An execution of `fxErrDefState` that failed with "a TIMEOUT happened". -/
def fxErrExecution : WorkflowState :=
  { name := "S", type := "operation", startTime := "t0", endTime := "t1",
    actions := none, error := some "a TIMEOUT happened", matchedCondition := none }

/-- The merged form of the erroring operation state. -/
def fxErrState : CombinedWorkflowState :=
  { name := "S", type := "operation", definition := fxErrDefState,
    execution := some fxErrExecution, wasExecuted := true, hasError := true,
    duration := 0 }

/-- C10: the matcher returns false whenever the error message or the
`errorRef` is empty — even though every string contains the empty string as a
substring, as the unguarded containment `containsCI` shows — and therefore a
handler whose `errorRef` is the empty string is never returned by
`findTriggeredErrorHandler` at all; in particular it can never be the
specifically-matched triggered handler. -/
theorem c10_empty_errorref_never_matches :
    (∀ m r : String, m = "" ∨ r = "" → matchesErrorRef m r = false) ∧
    (∀ m : String, containsCI m "" = true) ∧
    (∀ (s : CombinedWorkflowState) (h : WorkflowOnError) (ns : String),
      findTriggeredErrorHandler s = some (h, ns) → h.errorRef ≠ "") := by
  refine ⟨?_, ?_, triggered_errorRef_ne_empty⟩
  · intro m r h
    rcases h with h | h <;> subst h <;> simp [matchesErrorRef]
  · intro m
    have h0 : strLower "" = [] := rfl
    simp [containsCI, h0, containsChars_nil]

/-- Witness for C10 at concrete inputs. -/
theorem c10_empty_errorref_never_matches_witness :
    matchesErrorRef "boom" "" = false ∧ containsCI "boom" "" = true ∧
    fxTimeoutHandler.errorRef ≠ "" :=
  ⟨c10_empty_errorref_never_matches.1 "boom" "" (Or.inr rfl),
   c10_empty_errorref_never_matches.2.1 "boom",
   c10_empty_errorref_never_matches.2.2 fxErrState fxTimeoutHandler "H1" rfl⟩

/-! ## Merge lemmas -/

/-- The list of trace entries of an optional trace. -/
def traceStates : Option WorkflowDebugData → List WorkflowState
  | none => []
  | some dbg => dbg.states

/-- `foldl` step of the execution map: an accumulator survives a list no
entry of which matches the key. -/
theorem foldl_lookup_skip (n : String) (l : List WorkflowState)
    (acc : Option WorkflowState) (h : ∀ e ∈ l, e.name ≠ n) :
    l.foldl (fun acc s => if s.name == n then some s else acc) acc = acc := by
  induction l generalizing acc with
  | nil => rfl
  | cons s rest ih =>
      have hs : (s.name == n) = false := by
        simpa using h s (List.mem_cons_self s rest)
      rw [List.foldl_cons]
      simp only [hs, Bool.false_eq_true, if_false]
      exact ih acc (fun e he => h e (List.mem_cons_of_mem s he))

/-- A definition state matched by no trace entry looks up to nothing. -/
theorem execLookup_eq_none (t : Option WorkflowDebugData) (n : String)
    (h : ∀ e ∈ traceStates t, e.name ≠ n) : execLookup t n = none := by
  cases t with
  | none => rfl
  | some dbg => exact foldl_lookup_skip n dbg.states none h

/-! ## C3: shape of the merge -/

/-- The spec §8 worked example: switch `A` (condition `big` → `B`,
default → `C`) with terminal operation states `B` and `C`. -/
def fxSwitchA : WorkflowDefinitionState :=
  { name := "A", type := "switch", transition := none,
    dataConditions := some [{ name := "big", condition := "x>10",
                              transition := { nextState := "B" } }],
    defaultCondition := some { transition := { nextState := "C" } },
    onErrors := none, endFlag := false }

/-- Terminal operation state `B` of the worked example. -/
def fxOpB : WorkflowDefinitionState :=
  { name := "B", type := "operation", transition := none, dataConditions := none,
    defaultCondition := none, onErrors := none, endFlag := true }

/-- Terminal operation state `C` of the worked example. -/
def fxOpC : WorkflowDefinitionState :=
  { name := "C", type := "operation", transition := none, dataConditions := none,
    defaultCondition := none, onErrors := none, endFlag := true }

/-- The worked example's definition. -/
def fxDefinition : WorkflowDefinition :=
  { version := "1.0", specVersion := "0.8", id := "wf", name := "wf",
    description := "", start := "A", states := [fxSwitchA, fxOpB, fxOpC] }

/-- The worked example's trace: only `A` executed, taking branch `big`. -/
def fxTrace : WorkflowDebugData :=
  { states := [{ name := "A", type := "switch", startTime := "t0", endTime := "t1",
                 actions := none, error := none, matchedCondition := some "big" }] }

/-- C3: for every definition `D` and every (possibly absent) trace `T`,
`combineWorkflowData` returns exactly `len(D.states)` merged entries, one per
definition state in declaration order (so a trace entry naming no definition
state contributes no output entry), and a definition state matched by no
trace entry yields `wasExecuted = false` rather than an error. -/
theorem c3_merge_shape (getTime : String → Int) (d : WorkflowDefinition)
    (t : Option WorkflowDebugData) :
    ((combineWorkflowData getTime d t).states.length = d.states.length) ∧
    ((combineWorkflowData getTime d t).states.map CombinedWorkflowState.definition
      = d.states) ∧
    (∀ i : Nat,
      (((combineWorkflowData getTime d t).states)[i]?).map CombinedWorkflowState.name
        = ((d.states)[i]?).map WorkflowDefinitionState.name) ∧
    (∀ i : Nat, ∀ defState : WorkflowDefinitionState,
      (d.states)[i]? = some defState →
      (∀ e ∈ traceStates t, e.name ≠ defState.name) →
      ∃ s : CombinedWorkflowState,
        ((combineWorkflowData getTime d t).states)[i]? = some s ∧
        s.wasExecuted = false ∧ s.name = defState.name) := by
  refine ⟨by simp [combineWorkflowData], ?_, ?_, ?_⟩
  · simp [combineWorkflowData, List.map_map]
    have : (CombinedWorkflowState.definition ∘ combineOne getTime t) = id := by
      funext x; rfl
    simp [this]
  · intro i
    simp [combineWorkflowData, List.getElem?_map]
    cases (d.states)[i]? <;> rfl
  · intro i defState hget hnone
    refine ⟨combineOne getTime t defState, ?_, ?_, rfl⟩
    · simp [combineWorkflowData, List.getElem?_map, hget]
    · have hl : execLookup t defState.name = none := execLookup_eq_none t _ hnone
      simp [combineOne, hl]

/-- Witness for C3 on the worked example: three merged states, one per
definition state in order, and `B` (absent from the trace) not executed. -/
theorem c3_merge_shape_witness :
    ((combineWorkflowData (fun _ => 0) fxDefinition (some fxTrace)).states.length = 3) ∧
    (∃ s : CombinedWorkflowState,
      ((combineWorkflowData (fun _ => 0) fxDefinition (some fxTrace)).states)[1]?
        = some s ∧ s.wasExecuted = false ∧ s.name = fxOpB.name) :=
  ⟨(c3_merge_shape (fun _ => 0) fxDefinition (some fxTrace)).1,
   (c3_merge_shape (fun _ => 0) fxDefinition (some fxTrace)).2.2.2 1 fxOpB rfl
     (by intro e he; simp [traceStates, fxTrace] at he; simp [he, fxOpB])⟩

/-! ## C7: the derived `hasError` flag -/

/-- A one-state definition used by the C7 counterexample. -/
def fxEmptyErrDef : WorkflowDefinition :=
  { version := "1.0", specVersion := "0.8", id := "wf2", name := "wf2",
    description := "", start := "A",
    states := [{ name := "A", type := "operation", transition := none,
                 dataConditions := none, defaultCondition := none,
                 onErrors := none, endFlag := true }] }

/-- A trace whose single entry has its `error` field set to the empty
string. -/
def fxEmptyErrTrace : WorkflowDebugData :=
  { states := [{ name := "A", type := "operation", startTime := "t0",
                 endTime := "t1", actions := none, error := some "",
                 matchedCondition := none }] }

/-- Counterexample to C7 as stated: a state that executed with its
state-level `error` field *set* (to the empty string) but whose merged
`hasError` is false — JS truthiness treats `""` as no error, so "field is
set" does not imply `hasError`. -/
theorem c7_counterexample :
    ((combineWorkflowData (fun _ => 0) fxEmptyErrDef (some fxEmptyErrTrace)).states.map
        (fun s => (s.wasExecuted, s.hasError, s.execution.map WorkflowState.error)))
      = [(true, false, some (some ""))] := rfl

/-- C7 (amended): for every merged state, `wasExecuted` reflects the presence
of an execution record, and `hasError` is true iff the state executed and
either its state-level error or some action-level error is set *to a
non-empty string*; in particular a state that did not execute never has
`hasError = true`. -/
theorem c7_has_error_iff (getTime : String → Int) (d : WorkflowDefinition)
    (t : Option WorkflowDebugData) :
    ∀ s ∈ (combineWorkflowData getTime d t).states,
      s.wasExecuted = s.execution.isSome ∧
      (s.hasError = true ↔ ∃ ex : WorkflowState, s.execution = some ex ∧
        (jsStrTruthy ex.error = true ∨
          ∃ a ∈ ex.actions.getD [], jsStrTruthy a.error = true)) := by
  intro s hs
  simp only [combineWorkflowData, List.mem_map] at hs
  obtain ⟨defState, -, rfl⟩ := hs
  cases hl : execLookup t defState.name with
  | none =>
      constructor
      · simp [combineOne, hl]
      · simp [combineOne, hl]
  | some ex =>
      constructor
      · simp [combineOne, hl]
      · simp only [combineOne, hl, Option.some.injEq]
        constructor
        · intro h
          refine ⟨ex, rfl, ?_⟩
          simp only [stateHasError, Bool.or_eq_true] at h
          rcases h with h | h
          · exact Or.inl h
          · right
            cases hacts : ex.actions with
            | none => rw [hacts] at h; simp at h
            | some acts =>
                rw [hacts] at h
                simp only [List.any_eq_true] at h
                obtain ⟨a, ha, hta⟩ := h
                exact ⟨a, by simp [hacts, ha], hta⟩
        · rintro ⟨ex', hex', h⟩
          obtain rfl : ex = ex' := hex'
          simp only [stateHasError, Bool.or_eq_true]
          rcases h with h | ⟨a, ha, hta⟩
          · exact Or.inl h
          · right
            cases hacts : ex.actions with
            | none => rw [hacts] at ha; simp at ha
            | some acts =>
                rw [hacts] at ha
                simp only [Option.getD_some] at ha
                simp [List.any_eq_true]
                exact ⟨a, ha, hta⟩

/-- Witness for C7 (amended) on the worked example's executed switch state
(no error recorded, so `hasError` is false). -/
theorem c7_has_error_iff_witness :
    ∃ s ∈ (combineWorkflowData (fun _ => 0) fxDefinition (some fxTrace)).states,
      s.wasExecuted = s.execution.isSome ∧
      (s.hasError = true ↔ ∃ ex : WorkflowState, s.execution = some ex ∧
        (jsStrTruthy ex.error = true ∨
          ∃ a ∈ ex.actions.getD [], jsStrTruthy a.error = true)) := by
  have hmem : combineOne (fun _ => 0) (some fxTrace) fxSwitchA
      ∈ (combineWorkflowData (fun _ => 0) fxDefinition (some fxTrace)).states := by
    simp only [combineWorkflowData, List.mem_map]
    exact ⟨fxSwitchA, by simp [fxDefinition], rfl⟩
  exact ⟨combineOne (fun _ => 0) (some fxTrace) fxSwitchA, hmem,
    c7_has_error_iff (fun _ => 0) fxDefinition (some fxTrace) _ hmem⟩

/-! ## C4: classification of the normal-transition edge -/

/-- C4: for every non-switch merged state whose definition yields a normal
transition (`getNextStateName` non-null), both parser variants emit that
edge and render it as executed (animated, undashed) iff the state executed
without error, and otherwise in the dashed unexecuted-alternative style. -/
theorem c4_normal_edge_classification (s : CombinedWorkflowState) (ns : String)
    (htype : s.definition.type ≠ "switch")
    (hnext : getNextStateName s.definition = some ns) :
    (∃ e : REdge, V2.normalEdge s = some e ∧ e ∈ V2.edgesForState s ∧
      e.animated = (s.wasExecuted && !s.hasError) ∧
      e.strokeDasharray = (if s.wasExecuted && !s.hasError then none else some "5,5")) ∧
    (∃ e : REdge, V1.normalEdge s = some e ∧ e ∈ V1.edgesForState s ∧
      e.animated = (s.wasExecuted && !s.hasError) ∧
      e.strokeDasharray = (if s.wasExecuted && !s.hasError then none else some "5,5")) := by
  have hsw : (s.definition.type == "switch") = false := by simpa using htype
  constructor
  · cases he : V2.normalEdge s with
    | none => simp [V2.normalEdge, hnext] at he
    | some e =>
        have he' := he
        simp only [V2.normalEdge, hnext, Option.some.injEq] at he'
        subst he'
        refine ⟨_, rfl, ?_, rfl, ?_⟩
        · simp only [V2.edgesForState, hsw, Bool.false_eq_true, if_false, he,
            Option.toList_some, List.cons_append]
          exact List.mem_cons_self _ _
        · cases hw : (s.wasExecuted && !s.hasError) <;> simp [hw]
  · cases he : V1.normalEdge s with
    | none => simp [V1.normalEdge, hnext] at he
    | some e =>
        have he' := he
        simp only [V1.normalEdge, hnext, Option.some.injEq] at he'
        subst he'
        refine ⟨_, rfl, ?_, rfl, ?_⟩
        · simp only [V1.edgesForState, hsw, Bool.false_eq_true, if_false, he,
            Option.toList_some]
          exact List.mem_cons_self _ _
        · cases hw : s.wasExecuted <;> cases hh : s.hasError <;> simp [hw, hh]

/-- Witness for C4 at the concrete erroring operation state: its normal edge
exists in both variants and is classified unexecuted. -/
theorem c4_normal_edge_classification_witness :
    (∃ e : REdge, V2.normalEdge fxErrState = some e ∧ e ∈ V2.edgesForState fxErrState ∧
      e.animated = (fxErrState.wasExecuted && !fxErrState.hasError) ∧
      e.strokeDasharray =
        (if fxErrState.wasExecuted && !fxErrState.hasError then none else some "5,5")) ∧
    (∃ e : REdge, V1.normalEdge fxErrState = some e ∧ e ∈ V1.edgesForState fxErrState ∧
      e.animated = (fxErrState.wasExecuted && !fxErrState.hasError) ∧
      e.strokeDasharray =
        (if fxErrState.wasExecuted && !fxErrState.hasError then none else some "5,5")) :=
  c4_normal_edge_classification fxErrState "N" (by decide) rfl

/-! ## C5: the two default-condition detection code paths -/

/-- A switch definition state with a default condition targeting `C`. -/
def fxDefSwitchDef : WorkflowDefinitionState :=
  { name := "D", type := "switch", transition := none,
    dataConditions := some [],
    defaultCondition := some { transition := { nextState := "C" } },
    onErrors := none, endFlag := false }

/-- An executed switch state whose trace sets `matchedCondition` to the
literal string `"default"`. -/
def fxDefaultLit : CombinedWorkflowState :=
  { name := "D", type := "switch", definition := fxDefSwitchDef,
    execution := some { name := "D", type := "switch", startTime := "t0",
                        endTime := "t1", actions := none, error := none,
                        matchedCondition := some "default" },
    wasExecuted := true, hasError := false, duration := 0 }

/-- An executed switch state whose trace omits `matchedCondition`. -/
def fxDefaultAbsent : CombinedWorkflowState :=
  { name := "D", type := "switch", definition := fxDefSwitchDef,
    execution := some { name := "D", type := "switch", startTime := "t0",
                        endTime := "t1", actions := none, error := none,
                        matchedCondition := none },
    wasExecuted := true, hasError := false, duration := 0 }

/-- Counterexample to C5 as stated: on a trace that sets `matchedCondition`
to the literal string `"default"` the two code paths do *not* agree — the
literal-comparison variant (unnamed parser) classifies the default edge
executed while the absence-based variant (`workflowParser.ts`, whose test is
`!matchedCondition`) classifies it unexecuted, since `"default"` is truthy. -/
theorem c5_counterexample :
    (V2.defaultEdge fxDefaultLit).map REdge.animated = some true ∧
    (V1.defaultEdge fxDefaultLit).map REdge.animated = some false :=
  ⟨rfl, rfl⟩

/-- C5 (amended): the two default-condition detection code paths are not
equivalent; they disagree on every executed switch state that sets
`matchedCondition` to the literal `"default"` (only the literal-comparison
variant classifies its default edge executed) and on every executed switch
state whose trace omits `matchedCondition` (only the absence-based variant
classifies its default edge executed). -/
theorem c5_default_variants_disagree (s : CombinedWorkflowState)
    (dc : DefaultCondition) (ex : WorkflowState)
    (hdc : s.definition.defaultCondition = some dc)
    (hex : s.execution = some ex)
    (hw : s.wasExecuted = true) :
    (ex.matchedCondition = some "default" →
      (V2.defaultEdge s).map REdge.animated = some true ∧
      (V1.defaultEdge s).map REdge.animated = some false) ∧
    (ex.matchedCondition = none →
      (V1.defaultEdge s).map REdge.animated = some true ∧
      (V2.defaultEdge s).map REdge.animated = some false) := by
  constructor
  · intro hm
    constructor
    · simp [V2.defaultEdge, hdc, hex, hw, hm]
    · simp [V1.defaultEdge, hdc, hex, hw, hm, jsStrTruthy]
  · intro hm
    constructor
    · simp [V1.defaultEdge, hdc, hex, hw, hm, jsStrTruthy]
    · simp [V2.defaultEdge, hdc, hex, hw, hm]

/-- Witness for C5 (amended) at the two concrete executed switch states. -/
theorem c5_default_variants_disagree_witness :
    ((V2.defaultEdge fxDefaultLit).map REdge.animated = some true ∧
      (V1.defaultEdge fxDefaultLit).map REdge.animated = some false) ∧
    ((V1.defaultEdge fxDefaultAbsent).map REdge.animated = some true ∧
      (V2.defaultEdge fxDefaultAbsent).map REdge.animated = some false) :=
  ⟨(c5_default_variants_disagree fxDefaultLit
      { transition := { nextState := "C" } }
      { name := "D", type := "switch", startTime := "t0", endTime := "t1",
        actions := none, error := none, matchedCondition := some "default" }
      rfl rfl rfl).1 rfl,
   (c5_default_variants_disagree fxDefaultAbsent
      { transition := { nextState := "C" } }
      { name := "D", type := "switch", startTime := "t0", endTime := "t1",
        actions := none, error := none, matchedCondition := none }
      rfl rfl rfl).2 rfl⟩

/-! ## C1: error-handler resolution against the spec's wording -/

/-- Modelled from the spec's words (§4.2, as C1 states it): scan declared
handlers in order, skipping any whose `errorRef` equals the sentinel
`DefaultErrorRef`; a handler matches if the effective error message contains
its `errorRef` as a case-insensitive substring; first match wins. -/
def scanSpecific (msg : String) : List WorkflowOnError → Option WorkflowOnError
  | [] => none
  | h :: rest =>
      if h.errorRef ≠ "DefaultErrorRef" ∧ containsCI msg h.errorRef = true
      then some h else scanSpecific msg rest

/-- Modelled from the spec's words: the fallback scan for a handler whose
`errorRef` equals `DefaultErrorRef`. -/
def scanDefault : List WorkflowOnError → Option WorkflowOnError
  | [] => none
  | h :: rest => if h.errorRef = "DefaultErrorRef" then some h else scanDefault rest

/-- The resolution algorithm exactly as C1 states it: first substring match
(excluding the sentinel), else the `DefaultErrorRef` fallback, else null. -/
def resolveHandlerSpec (msg : String) (handlers : List WorkflowOnError) :
    Option (WorkflowOnError × String) :=
  match scanSpecific msg handlers with
  | some h => some (h, getErrorHandlerNextState h)
  | none =>
      match scanDefault handlers with
      | some h => some (h, getErrorHandlerNextState h)
      | none => none

/-- The amended first scan: a handler additionally must have a *non-empty*
`errorRef` to match, mirroring the `matchesErrorRef` empty-string guard. -/
def scanSpecificAmended (msg : String) : List WorkflowOnError → Option WorkflowOnError
  | [] => none
  | h :: rest =>
      if h.errorRef ≠ "DefaultErrorRef" ∧ h.errorRef ≠ "" ∧ containsCI msg h.errorRef = true
      then some h else scanSpecificAmended msg rest

/-- The amended resolution algorithm (C1 with the non-empty-`errorRef`
proviso). -/
def resolveHandlerAmended (msg : String) (handlers : List WorkflowOnError) :
    Option (WorkflowOnError × String) :=
  match scanSpecificAmended msg handlers with
  | some h => some (h, getErrorHandlerNextState h)
  | none =>
      match scanDefault handlers with
      | some h => some (h, getErrorHandlerNextState h)
      | none => none

/-- An effective error message extracted by the code is never empty. -/
theorem effectiveErrorMessage_ne_empty {ex : WorkflowState} {msg : String}
    (h : effectiveErrorMessage ex = some msg) : msg ≠ "" := by
  unfold effectiveErrorMessage at h
  split at h
  · rename_i ht
    rw [h] at ht
    simpa [jsStrTruthy] using ht
  · split at h
    · exact absurd h (by simp)
    · split at h
      · rename_i acts a hfind
        have hp := List.find?_some hfind
        rw [h] at hp
        simpa [jsStrTruthy] using hp
      · exact absurd h (by simp)

/-- On a non-empty message, `matchesErrorRef` is the unguarded containment
plus the non-empty-`errorRef` requirement. -/
theorem matchesErrorRef_eq_of_msg_ne {m : String} (hm : m ≠ "") (r : String) :
    matchesErrorRef m r = (!(r == "") && containsCI m r) := by
  unfold matchesErrorRef
  have hmb : (m == "") = false := by simpa using hm
  rw [hmb]
  simp only [Bool.false_or]
  cases hr : (r == "") <;> simp [hr]

/-- The code's first scan equals the amended spec scan on a non-empty
message. -/
theorem find?_eq_scanSpecificAmended {m : String} (hm : m ≠ "")
    (l : List WorkflowOnError) :
    l.find? (fun h => h.errorRef != "DefaultErrorRef" && matchesErrorRef m h.errorRef)
      = scanSpecificAmended m l := by
  induction l with
  | nil => rfl
  | cons h rest ih =>
      by_cases hc : h.errorRef ≠ "DefaultErrorRef" ∧ h.errorRef ≠ "" ∧
          containsCI m h.errorRef = true
      · obtain ⟨h1, h2, h3⟩ := hc
        rw [List.find?_cons_of_pos, scanSpecificAmended]
        · rw [if_pos ⟨h1, h2, h3⟩]
        · rw [matchesErrorRef_eq_of_msg_ne hm]
          simp [h1, h2, h3]
      · rw [List.find?_cons_of_neg, scanSpecificAmended, if_neg hc]
        · exact ih
        · rw [matchesErrorRef_eq_of_msg_ne hm]
          simp only [Bool.and_eq_true, bne_iff_ne, Bool.not_eq_eq_eq_not,
            Bool.not_true, beq_eq_false_iff_ne, Bool.not_eq_true]
          intro hcon
          exact hc ⟨hcon.1, hcon.2.1, hcon.2.2⟩

/-- The code's fallback scan equals the spec's fallback scan. -/
theorem find?_eq_scanDefault (l : List WorkflowOnError) :
    l.find? (fun h => h.errorRef == "DefaultErrorRef") = scanDefault l := by
  induction l with
  | nil => rfl
  | cons h rest ih =>
      by_cases hc : h.errorRef = "DefaultErrorRef"
      · rw [List.find?_cons_of_pos]
        · simp only [scanDefault, if_pos hc]
        · simpa using hc
      · rw [List.find?_cons_of_neg]
        · simp only [scanDefault, if_neg hc]
          exact ih
        · simpa using hc

/-- A declared handler whose `errorRef` is the empty string. -/
def fxEmptyRefHandler : WorkflowOnError :=
  { errorRef := "", transition := TransitionRef.obj "H" }

/-- An erroring merged state whose only declared handler has an empty
`errorRef`. -/
def fxEmptyRefState : CombinedWorkflowState :=
  { name := "S", type := "operation",
    definition := { name := "S", type := "operation",
                    transition := some (TransitionRef.obj "N"),
                    dataConditions := none, defaultCondition := none,
                    onErrors := some [fxEmptyRefHandler], endFlag := false },
    execution := some { name := "S", type := "operation", startTime := "t0",
                        endTime := "t1", actions := none, error := some "boom",
                        matchedCondition := none },
    wasExecuted := true, hasError := true, duration := 0 }

/-- Counterexample to C1 as stated: the state has `hasError`, declares
`onErrors`, and its effective error message is `"boom"`; its only handler's
`errorRef` (the empty string) is not `DefaultErrorRef` and *does* occur in
`"boom"` as a case-insensitive substring, so the claimed resolution rule
returns that handler — but the code returns null, because `matchesErrorRef`
rejects an empty `errorRef`. -/
theorem c1_counterexample :
    fxEmptyRefState.hasError = true ∧
    fxEmptyRefState.definition.onErrors = some [fxEmptyRefHandler] ∧
    effectiveErrorMessage { name := "S", type := "operation", startTime := "t0",
                            endTime := "t1", actions := none,
                            error := some "boom", matchedCondition := none }
      = some "boom" ∧
    fxEmptyRefHandler.errorRef ≠ "DefaultErrorRef" ∧
    containsCI "boom" fxEmptyRefHandler.errorRef = true ∧
    resolveHandlerSpec "boom" [fxEmptyRefHandler] = some (fxEmptyRefHandler, "H") ∧
    findTriggeredErrorHandler fxEmptyRefState = none := by
  refine ⟨rfl, rfl, rfl, by decide, rfl, rfl, rfl⟩

/-- C1 (amended): for every merged state with `hasError`, declared
`onErrors` and a present execution carrying an effective error message, the
code's resolution is exactly the spec's scan amended with the proviso that a
matching handler's `errorRef` must be non-empty: first declared handler
(skipping the `DefaultErrorRef` sentinel) whose non-empty `errorRef` occurs
case-insensitively in the message, else the declared `DefaultErrorRef`
fallback, else null; in particular of two matching handlers the
earlier-declared one is chosen. -/
theorem c1_resolution_matches_spec (s : CombinedWorkflowState)
    (handlers : List WorkflowOnError) (ex : WorkflowState) (msg : String)
    (herr : s.hasError = true)
    (hh : s.definition.onErrors = some handlers)
    (hex : s.execution = some ex)
    (hmsg : effectiveErrorMessage ex = some msg) :
    findTriggeredErrorHandler s = resolveHandlerAmended msg handlers := by
  have hne : msg ≠ "" := effectiveErrorMessage_ne_empty hmsg
  have hmb : (msg == "") = false := by simpa using hne
  unfold findTriggeredErrorHandler
  rw [herr, hh, hex]
  simp only [Bool.not_true, Bool.false_eq_true, if_false]
  rw [hmsg]
  simp only [hmb, Bool.false_eq_true, if_false,
    find?_eq_scanSpecificAmended hne, find?_eq_scanDefault]
  rfl

/-- Witness for C1 (amended) at the concrete erroring operation state with
three declared handlers. -/
theorem c1_resolution_matches_spec_witness :
    findTriggeredErrorHandler fxErrState =
      resolveHandlerAmended "a TIMEOUT happened"
        [fxTimeoutHandler, fxCaseHandler, fxDefaultHandler] :=
  c1_resolution_matches_spec fxErrState
    [fxTimeoutHandler, fxCaseHandler, fxDefaultHandler] fxErrExecution
    "a TIMEOUT happened" rfl rfl rfl rfl

/-! ## C8: edge counts per state -/

/-- A state with no declared `onErrors` never resolves a triggered handler. -/
theorem triggered_none_of_no_handlers (s : CombinedWorkflowState)
    (h : s.definition.onErrors = none) : findTriggeredErrorHandler s = none := by
  unfold findTriggeredErrorHandler
  split
  · rfl
  · split
    · rename_i heq _
      rw [h] at heq
      cases heq
    · rfl

/-- A triggered handler is one of the declared handlers. -/
theorem triggered_mem (s : CombinedWorkflowState) (h : WorkflowOnError)
    (ns : String) (handlers : List WorkflowOnError)
    (hh : s.definition.onErrors = some handlers)
    (heq : findTriggeredErrorHandler s = some (h, ns)) : h ∈ handlers := by
  unfold findTriggeredErrorHandler at heq
  split at heq
  · exact absurd heq (by simp)
  · split at heq
    · rename_i handlers0 ex heq1 heq2
      rw [hh] at heq1
      cases heq1
      split at heq
      · exact absurd heq (by simp)
      · split at heq
        · exact absurd heq (by simp)
        · split at heq
          · rename_i h0 hfind
            have hm := List.mem_of_find?_eq_some hfind
            cases heq
            exact hm
          · split at heq
            · rename_i h0 hfind
              have hm := List.mem_of_find?_eq_some hfind
              cases heq
              exact hm
            · exact absurd heq (by simp)
    · exact absurd heq (by simp)

/-- Dropping one handler from a duplicate-free list by its `errorRef` removes
exactly that handler. -/
theorem filter_ne_ref_length {handlers : List WorkflowOnError}
    {h : WorkflowOnError} (hmem : h ∈ handlers)
    (hnd : (handlers.map WorkflowOnError.errorRef).Nodup) :
    (handlers.filter (fun x => x.errorRef != h.errorRef)).length + 1
      = handlers.length := by
  induction handlers with
  | nil => cases hmem
  | cons a rest ih =>
      simp only [List.map_cons, List.nodup_cons] at hnd
      obtain ⟨hna, hnd2⟩ := hnd
      rcases List.mem_cons.mp hmem with rfl | hmem2
      · have hfix : rest.filter (fun x => x.errorRef != h.errorRef) = rest := by
          apply List.filter_eq_self.mpr
          intro x hx
          simp only [bne_iff_ne, ne_eq, decide_eq_true_eq]
          intro hxr
          exact hna (hxr ▸ List.mem_map_of_mem WorkflowOnError.errorRef hx)
        simp [List.filter_cons, hfix]
      · have hr : h.errorRef ∈ rest.map WorkflowOnError.errorRef :=
          List.mem_map_of_mem WorkflowOnError.errorRef hmem2
        have hne : (a.errorRef != h.errorRef) = true := by
          simp only [bne_iff_ne, ne_eq]
          intro hcontra
          exact hna (hcontra ▸ hr)
        simp only [List.filter_cons, hne, if_true, List.length_cons]
        rw [Nat.succ_add, ih hmem2 hnd2]

/-- The normal edge exists exactly when `getNextStateName` is non-null. -/
theorem normalEdge_toList_length (s : CombinedWorkflowState) :
    ((V2.normalEdge s).toList.length) = (getNextStateName s.definition).toList.length := by
  unfold V2.normalEdge
  cases hn : getNextStateName s.definition <;> simp

/-- C8 (amended): a switch state with `k` declared data-conditions and a
default condition yields exactly `k + 1` edges; a non-switch state whose
declared handlers have pairwise distinct `errorRef`s yields one normal edge
(when a normal transition exists) plus one edge per declared handler — with
duplicated `errorRef`s the code collapses co-declared handlers sharing the
triggered handler's `errorRef` (see the counterexample). -/
theorem c8_edge_counts :
    (∀ s : CombinedWorkflowState, s.definition.type = "switch" →
      ∀ dc : DefaultCondition, s.definition.defaultCondition = some dc →
      (V2.edgesForState s).length = (s.definition.dataConditions.getD []).length + 1) ∧
    (∀ s : CombinedWorkflowState, s.definition.type ≠ "switch" →
      ((s.definition.onErrors.getD []).map WorkflowOnError.errorRef).Nodup →
      (V2.edgesForState s).length =
        (getNextStateName s.definition).toList.length +
          (s.definition.onErrors.getD []).length) := by
  constructor
  · intro s htype dc hdc
    have hsw : (s.definition.type == "switch") = true := by simpa using htype
    simp [V2.edgesForState, hsw, V2.defaultEdge, hdc]
  · intro s htype hnd
    have hsw : (s.definition.type == "switch") = false := by simpa using htype
    simp only [V2.edgesForState, hsw, Bool.false_eq_true, if_false,
      List.length_append, normalEdge_toList_length]
    congr 1
    cases ho : s.definition.onErrors with
    | none =>
        simp [V2.errorEdges, triggered_none_of_no_handlers s ho, ho]
    | some handlers =>
        cases ht : findTriggeredErrorHandler s with
        | none => simp [V2.errorEdges, ht, ho]
        | some t =>
            obtain ⟨h, ns⟩ := t
            have hmem := triggered_mem s h ns handlers ho ht
            rw [ho] at hnd
            simp only [Option.getD_some] at hnd
            simp only [V2.errorEdges, ht, ho, List.length_cons,
              List.length_map, Option.getD_some]
            rw [← filter_ne_ref_length hmem hnd]

/-- Witness for C8 at the worked example's switch state (one condition plus
default) and at the erroring operation state (one normal edge plus three
handler edges). -/
theorem c8_edge_counts_witness :
    (V2.edgesForState (combineOne (fun _ => 0) (some fxTrace) fxSwitchA)).length = 2 ∧
    (V2.edgesForState fxErrState).length = 4 :=
  ⟨c8_edge_counts.1 (combineOne (fun _ => 0) (some fxTrace) fxSwitchA) rfl
      { transition := { nextState := "C" } } rfl,
   c8_edge_counts.2 fxErrState (by decide) (by decide)⟩

/-- Two declared handlers sharing the `errorRef` `"errA"`. -/
def fxDupHandlerX : WorkflowOnError :=
  { errorRef := "errA", transition := TransitionRef.obj "X" }

/-- Second handler with the same `errorRef`, different target. -/
def fxDupHandlerY : WorkflowOnError :=
  { errorRef := "errA", transition := TransitionRef.obj "Y" }

/-- An erroring operation state declaring two handlers with the same
`errorRef`, whose error message matches it. -/
def fxDupRefState : CombinedWorkflowState :=
  { name := "S", type := "operation",
    definition := { name := "S", type := "operation",
                    transition := some (TransitionRef.obj "N"),
                    dataConditions := none, defaultCondition := none,
                    onErrors := some [fxDupHandlerX, fxDupHandlerY],
                    endFlag := false },
    execution := some { name := "S", type := "operation", startTime := "t0",
                        endTime := "t1", actions := none,
                        error := some "errA happened", matchedCondition := none },
    wasExecuted := true, hasError := true, duration := 0 }

/-- Counterexample to C8 as stated: an operation state declaring `h = 2`
error handlers (with equal `errorRef`s) and a normal transition emits only
2 edges, not the claimed `1 + h = 3` — the untriggered-handler loop skips
*every* handler sharing the triggered handler's `errorRef`. -/
theorem c8_counterexample :
    (fxDupRefState.definition.onErrors.getD []).length = 2 ∧
    getNextStateName fxDupRefState.definition = some "N" ∧
    (V2.edgesForState fxDupRefState).length = 2 ∧
    (V2.edgesForState fxDupRefState).length ≠
      1 + (fxDupRefState.definition.onErrors.getD []).length :=
  ⟨rfl, rfl, rfl, by decide⟩

/-! ## C9: switch states ignore their declared error handlers -/

/-- Erase the `onErrors` declaration of a switch state (identity on
non-switch states). -/
def eraseSwitchOnErrors (s : CombinedWorkflowState) : CombinedWorkflowState :=
  if s.definition.type == "switch" then
    { s with definition := { s.definition with onErrors := none } }
  else s

/-- Erasure preserves the state name. -/
theorem eraseSwitchOnErrors_name (s : CombinedWorkflowState) :
    (eraseSwitchOnErrors s).name = s.name := by
  unfold eraseSwitchOnErrors
  split <;> rfl

/-- The state-map lookup commutes with erasure. -/
theorem lookupState_map_erase (m : List CombinedWorkflowState) (n : String) :
    V2.lookupState (m.map eraseSwitchOnErrors) n
      = (V2.lookupState m n).map eraseSwitchOnErrors := by
  unfold V2.lookupState
  suffices h : ∀ acc : Option CombinedWorkflowState,
      (m.map eraseSwitchOnErrors).foldl
          (fun acc s => if s.name == n then some s else acc) (acc.map eraseSwitchOnErrors)
        = (m.foldl (fun acc s => if s.name == n then some s else acc) acc).map
            eraseSwitchOnErrors by
    simpa using h none
  induction m with
  | nil => intro acc; rfl
  | cons s rest ih =>
      intro acc
      simp only [List.map_cons, List.foldl_cons, eraseSwitchOnErrors_name]
      by_cases hn : s.name == n
      · rw [if_pos hn, if_pos hn]
        exact ih (some s)
      · rw [if_neg hn, if_neg hn]
        exact ih acc

/-- The recursive calls issued from a state do not depend on a switch
state's `onErrors` declaration. -/
theorem childItems_erase (s : CombinedWorkflowState) (level position : Nat) :
    V2.childItems (eraseSwitchOnErrors s) level position
      = V2.childItems s level position := by
  unfold eraseSwitchOnErrors
  split
  · rename_i hsw
    simp [V2.childItems, hsw]
  · rfl

/-- The whole layout traversal is invariant under erasing every switch
state's `onErrors`. -/
theorem layoutLoop_erase (m : List CombinedWorkflowState) :
    ∀ (fuel : Nat) (work : List (String × Nat × Nat)) (st : V2.LayoutSt),
      V2.layoutLoop (m.map eraseSwitchOnErrors) fuel work st
        = V2.layoutLoop m fuel work st := by
  intro fuel
  induction fuel with
  | zero => intro work st; cases work <;> rfl
  | succ f ih =>
      intro work st
      cases work with
      | nil => rfl
      | cons item rest =>
          obtain ⟨name, level, position⟩ := item
          simp only [V2.layoutLoop, lookupState_map_erase]
          by_cases hv : name ∈ st.visited
          · rw [if_pos hv, if_pos hv]
            exact ih rest st
          · rw [if_neg hv, if_neg hv]
            cases hl : V2.lookupState m name with
            | none => simp only [Option.map_none']; exact ih rest st
            | some s =>
                simp only [Option.map_some', childItems_erase]
                exact ih _ _

/-- C9: a switch state's declared `onErrors` are ignored entirely — its
emitted edges are exactly its data-condition edges followed by its default
edge (no error-handler edges), they are unchanged if `onErrors` is erased,
and the layout traversal of any state map is unchanged if every switch
state's `onErrors` is erased (so layout never recurses into a switch state's
handler targets), irrespective of `wasExecuted` or `hasError`. -/
theorem c9_switch_ignores_handlers :
    (∀ s : CombinedWorkflowState, s.definition.type = "switch" →
      V2.edgesForState s =
        ((s.definition.dataConditions.getD []).map (V2.condEdge s)) ++
          (V2.defaultEdge s).toList ∧
      V2.edgesForState (eraseSwitchOnErrors s) = V2.edgesForState s) ∧
    (∀ (m : List CombinedWorkflowState) (fuel : Nat)
        (work : List (String × Nat × Nat)) (st : V2.LayoutSt),
      V2.layoutLoop (m.map eraseSwitchOnErrors) fuel work st
        = V2.layoutLoop m fuel work st) := by
  refine ⟨?_, layoutLoop_erase⟩
  intro s htype
  have hsw : (s.definition.type == "switch") = true := by simpa using htype
  constructor
  · simp [V2.edgesForState, hsw]
  · unfold eraseSwitchOnErrors
    rw [if_pos hsw]
    simp [V2.edgesForState, hsw, V2.condEdge, V2.defaultEdge]

/-- Witness for C9 at the executed, erroring switch state `fxDefaultLit`
(with handlers attached for the occasion) and a concrete one-step layout. -/
theorem c9_switch_ignores_handlers_witness :
    (V2.edgesForState fxDefaultLit =
      ((fxDefaultLit.definition.dataConditions.getD []).map (V2.condEdge fxDefaultLit)) ++
        (V2.defaultEdge fxDefaultLit).toList ∧
      V2.edgesForState (eraseSwitchOnErrors fxDefaultLit) = V2.edgesForState fxDefaultLit) ∧
    V2.layoutLoop ([fxDefaultLit].map eraseSwitchOnErrors) 3 [("D", 0, 0)] ⟨[], []⟩
      = V2.layoutLoop [fxDefaultLit] 3 [("D", 0, 0)] ⟨[], []⟩ :=
  ⟨c9_switch_ignores_handlers.1 fxDefaultLit rfl,
   c9_switch_ignores_handlers.2 [fxDefaultLit] 3 [("D", 0, 0)] ⟨[], []⟩⟩

namespace V2

/-! ## C2: termination, uniqueness and totality of the layout -/

/-- An empty worklist leaves the traversal state unchanged. -/
theorem layoutLoop_nil (m : List CombinedWorkflowState) (fuel : Nat)
    (st : LayoutSt) : layoutLoop m fuel [] st = st := by
  cases fuel <;> rfl

/-- `foldl` characterization of the state-map lookup: a hit is an element of
the map with the looked-up name. -/
theorem lookupState_foldl_aux (n : String) :
    ∀ (m : List CombinedWorkflowState) (acc : Option CombinedWorkflowState)
      (s : CombinedWorkflowState),
      m.foldl (fun acc s => if s.name == n then some s else acc) acc = some s →
      (s ∈ m ∧ s.name = n) ∨ acc = some s := by
  intro m
  induction m with
  | nil => intro acc s h; exact Or.inr h
  | cons a rest ih =>
      intro acc s h
      rw [List.foldl_cons] at h
      rcases ih _ s h with ⟨hm, hn⟩ | hacc
      · exact Or.inl ⟨List.mem_cons_of_mem a hm, hn⟩
      · cases ha : (a.name == n) with
        | true =>
            rw [ha] at hacc
            simp only [if_true] at hacc
            cases hacc
            exact Or.inl ⟨List.mem_cons_self a rest, by simpa using ha⟩
        | false =>
            rw [ha] at hacc
            simp only [Bool.false_eq_true, if_false] at hacc
            exact Or.inr hacc

/-- A successful `lookupState` returns an element of the map with the
looked-up name. -/
theorem lookupState_mem (m : List CombinedWorkflowState) (n : String)
    (s : CombinedWorkflowState) (h : lookupState m n = some s) :
    s ∈ m ∧ s.name = n := by
  unfold lookupState at h
  rcases lookupState_foldl_aux n m none s h with hgood | hbad
  · exact hgood
  · cases hbad

/-- Growing the visited set cannot increase the step measure. -/
theorem sumUnvisited_cons_le (name : String) (visited : List String)
    (m : List CombinedWorkflowState) :
    sumUnvisited (name :: visited) m ≤ sumUnvisited visited m := by
  induction m with
  | nil => exact Nat.le_refl 0
  | cons s rest ih =>
      simp only [sumUnvisited]
      apply Nat.add_le_add _ ih
      by_cases hv : s.name ∈ visited
      · rw [if_pos hv, if_pos (List.mem_cons_of_mem name hv)]
      · rw [if_neg hv]
        by_cases hn : s.name ∈ name :: visited
        · rw [if_pos hn]; exact Nat.zero_le _
        · rw [if_neg hn]

/-- Visiting a present, unvisited state pays for all of its recursive
calls: its child count plus the new remaining measure fits in the old
measure. -/
theorem sumUnvisited_visit (name : String) (visited : List String)
    (cur : CombinedWorkflowState) (m : List CombinedWorkflowState)
    (hmem : cur ∈ m) (hname : cur.name = name) (hnv : name ∉ visited) :
    childCount cur + sumUnvisited (name :: visited) m ≤ sumUnvisited visited m := by
  induction m with
  | nil => cases hmem
  | cons s rest ih =>
      simp only [sumUnvisited]
      rcases List.mem_cons.mp hmem with rfl | hmem2
      · have h1 : cur.name ∈ name :: visited := by
          rw [hname]; exact List.mem_cons_self name visited
        have h2 : cur.name ∉ visited := by rw [hname]; exact hnv
        rw [if_pos h1, if_neg h2]
        have := sumUnvisited_cons_le name visited rest
        omega
      · have hle := ih hmem2
        have hterm : (if s.name ∈ name :: visited then 0 else childCount s)
            ≤ (if s.name ∈ visited then 0 else childCount s) := by
          by_cases hv : s.name ∈ visited
          · rw [if_pos hv, if_pos (List.mem_cons_of_mem name hv)]
          · rw [if_neg hv]
            by_cases hn : s.name ∈ name :: visited
            · rw [if_pos hn]; exact Nat.zero_le _
            · rw [if_neg hn]
        omega

/-- The number of recursive calls from a state does not depend on the level
and position arguments. -/
theorem childItems_length (s : CombinedWorkflowState) (level position : Nat) :
    (childItems s level position).length = childCount s := by
  unfold childCount childItems
  by_cases hc : (s.definition.type == "switch") = true
  · rw [if_pos hc, if_pos hc]
    cases s.definition.defaultCondition <;> simp [List.enum_length]
  · rw [if_neg hc, if_neg hc]
    cases getNextStateName s.definition <;> simp [List.enum_length]

/-- One extra unit of fuel is irrelevant once the fuel covers the step
measure: the worklist loop has already run to completion. -/
theorem layoutLoop_step_fuel (m : List CombinedWorkflowState) :
    ∀ (fuel : Nat) (work : List (String × Nat × Nat)) (st : LayoutSt),
      work.length + sumUnvisited st.visited m ≤ fuel →
      layoutLoop m (fuel + 1) work st = layoutLoop m fuel work st := by
  intro fuel
  induction fuel with
  | zero =>
      intro work st h
      have hw : work = [] := by
        cases work with
        | nil => rfl
        | cons a rest => simp at h
      subst hw
      rw [layoutLoop_nil, layoutLoop_nil]
  | succ f ih =>
      intro work st h
      cases work with
      | nil => rw [layoutLoop_nil, layoutLoop_nil]
      | cons item rest =>
          obtain ⟨name, level, position⟩ := item
          simp only [layoutLoop]
          by_cases hv : name ∈ st.visited
          · rw [if_pos hv, if_pos hv]
            apply ih
            simp only [List.length_cons] at h
            omega
          · rw [if_neg hv, if_neg hv]
            cases hl : lookupState m name with
            | none =>
                apply ih
                simp only [List.length_cons] at h
                omega
            | some s =>
                apply ih
                obtain ⟨hmem, hname⟩ := lookupState_mem m name s hl
                have hvisit := sumUnvisited_visit name st.visited s m hmem hname hv
                simp only [List.length_append, List.length_cons, childItems_length]
                simp only [List.length_cons] at h
                omega

/-- Fuel insensitivity: any fuel at least the step measure yields the same
result — the traversal terminates. -/
theorem layoutLoop_fuel_irrelevant (m : List CombinedWorkflowState)
    (fuel fuel2 : Nat) (work : List (String × Nat × Nat)) (st : LayoutSt)
    (h : work.length + sumUnvisited st.visited m ≤ fuel) (h2 : fuel ≤ fuel2) :
    layoutLoop m fuel2 work st = layoutLoop m fuel work st := by
  obtain ⟨k, rfl⟩ := Nat.le.dest h2
  induction k with
  | zero => rfl
  | succ j ihj =>
      rw [Nat.add_succ, layoutLoop_step_fuel m (fuel + j) work st
        (Nat.le_trans h (Nat.le_add_right fuel j))]
      exact ihj (Nat.le_add_right fuel j)

/-- Invariant of the worklist loop: the position log has pairwise distinct
keys (no state is positioned twice) and every positioned key is visited. -/
theorem layoutLoop_nodup (m : List CombinedWorkflowState) :
    ∀ (fuel : Nat) (work : List (String × Nat × Nat)) (st : LayoutSt),
      (st.positions.map Prod.fst).Nodup →
      (∀ k ∈ st.positions.map Prod.fst, k ∈ st.visited) →
      ((layoutLoop m fuel work st).positions.map Prod.fst).Nodup ∧
      (∀ k ∈ (layoutLoop m fuel work st).positions.map Prod.fst,
        k ∈ (layoutLoop m fuel work st).visited) := by
  intro fuel
  induction fuel with
  | zero =>
      intro work st h1 h2
      cases work with
      | nil => exact ⟨h1, h2⟩
      | cons a rest => exact ⟨h1, h2⟩
  | succ f ih =>
      intro work st h1 h2
      cases work with
      | nil => exact ⟨h1, h2⟩
      | cons item rest =>
          obtain ⟨name, level, position⟩ := item
          simp only [layoutLoop]
          by_cases hv : name ∈ st.visited
          · rw [if_pos hv]
            exact ih rest st h1 h2
          · rw [if_neg hv]
            cases hl : lookupState m name with
            | none => exact ih rest st h1 h2
            | some s =>
                apply ih
                · simp only [List.map_append, List.map_cons, List.map_nil]
                  rw [List.nodup_append]
                  refine ⟨h1, List.nodup_singleton name, ?_⟩
                  intro k hk hk2
                  simp only [List.mem_singleton] at hk2
                  subst hk2
                  exact hv (h2 k hk)
                · intro k hk
                  simp only [List.map_append, List.map_cons, List.map_nil,
                    List.mem_append, List.mem_singleton] at hk
                  rcases hk with hk | rfl
                  · exact List.mem_cons_of_mem name (h2 k hk)
                  · exact List.mem_cons_self k st.visited

end V2

/-- A lookup on a position log without the key returns nothing. -/
theorem lookup_eq_none_of_not_mem (l : List (String × Nat × Nat)) (k : String)
    (h : k ∉ l.map Prod.fst) : l.lookup k = none := by
  induction l with
  | nil => rfl
  | cons a rest ih =>
      simp only [List.map_cons, List.mem_cons, not_or] at h
      obtain ⟨h1, h2⟩ := h
      have hb : (k == a.1) = false := by simpa using h1
      obtain ⟨a1, a2⟩ := a
      simp only [List.lookup] at *
      rw [hb]
      simp only [Bool.false_eq_true, if_false]
      exact ih h2

/-- C2: the layout traversal terminates (any fuel at least `layoutFuel`
yields the same completed result, cycles included), never assigns a state a
position twice (the position log's keys are duplicate-free, because the
visited set is checked before positioning), and the node loop still gives
every merged state exactly one position, states unreached from the start
receiving the fallback `(index × 400, 0)` by merge-order index. -/
theorem c2_layout_terminates_unique_total (combined : CombinedWorkflowData) :
    (∀ fuel : Nat, V2.layoutFuel combined ≤ fuel →
      V2.layoutLoop combined.states fuel [(combined.startState, 0, 0)] ⟨[], []⟩
        = V2.layoutRun combined) ∧
    ((V2.layoutRun combined).positions.map Prod.fst).Nodup ∧
    (V2.nodePositions combined).length = combined.states.length ∧
    (∀ (i : Nat) (s : CombinedWorkflowState), (combined.states)[i]? = some s →
      ∃ xy : Nat × Nat, (V2.nodePositions combined)[i]? = some (s.name, xy)) ∧
    (∀ (i : Nat) (s : CombinedWorkflowState), (combined.states)[i]? = some s →
      s.name ∉ (V2.layoutRun combined).positions.map Prod.fst →
      (V2.nodePositions combined)[i]? = some (s.name, (400 * i, 0))) := by
  refine ⟨?_, ?_, ?_, ?_, ?_⟩
  · intro fuel hf
    unfold V2.layoutRun
    apply V2.layoutLoop_fuel_irrelevant
    · simp only [List.length_cons, List.length_nil]
      unfold V2.layoutFuel at *
      omega
    · exact hf
  · exact (V2.layoutLoop_nodup combined.states _ _ _ (by simp) (by simp)).1
  · simp [V2.nodePositions, List.enum_length]
  · intro i s hs
    simp only [V2.nodePositions, List.getElem?_map, List.getElem?_enum, hs,
      Option.map_some']
    exact ⟨_, rfl⟩
  · intro i s hs hnot
    have hlook : ((V2.layoutRun combined).positions).lookup s.name = none :=
      lookup_eq_none_of_not_mem _ _ hnot
    simp only [V2.nodePositions, List.getElem?_map, List.getElem?_enum, hs,
      Option.map_some']
    simp [hlook]

/-- Cyclic fixture: `A → B → A` with a structurally unreachable `Z`. -/
def fxCycleA : WorkflowDefinitionState :=
  { name := "A", type := "operation", transition := some (TransitionRef.obj "B"),
    dataConditions := none, defaultCondition := none, onErrors := none,
    endFlag := false }

/-- `B` transitions back to `A`, closing the cycle. -/
def fxCycleB : WorkflowDefinitionState :=
  { name := "B", type := "operation", transition := some (TransitionRef.str "A"),
    dataConditions := none, defaultCondition := none, onErrors := none,
    endFlag := false }

/-- `Z` is declared but unreachable from the start state. -/
def fxUnreachedZ : WorkflowDefinitionState :=
  { name := "Z", type := "operation", transition := none, dataConditions := none,
    defaultCondition := none, onErrors := none, endFlag := true }

/-- The cyclic definition. -/
def fxCycleDef : WorkflowDefinition :=
  { version := "1.0", specVersion := "0.8", id := "cy", name := "cy",
    description := "", start := "A", states := [fxCycleA, fxCycleB, fxUnreachedZ] }

/-- The cyclic definition merged with an absent trace. -/
def fxCycleCombined : CombinedWorkflowData :=
  combineWorkflowData (fun _ => 0) fxCycleDef none

/-- Witness for C2 on the cyclic fixture: completion at the computed fuel,
duplicate-free position keys, and the unreachable `Z` at the fallback
`(2 × 400, 0)`. -/
theorem c2_layout_terminates_unique_total_witness :
    (V2.layoutLoop fxCycleCombined.states (V2.layoutFuel fxCycleCombined)
        [(fxCycleCombined.startState, 0, 0)] ⟨[], []⟩ = V2.layoutRun fxCycleCombined) ∧
    ((V2.layoutRun fxCycleCombined).positions.map Prod.fst).Nodup ∧
    (V2.nodePositions fxCycleCombined)[2]?
      = some ((combineOne (fun _ => 0) none fxUnreachedZ).name, (400 * 2, 0)) :=
  ⟨(c2_layout_terminates_unique_total fxCycleCombined).1
      (V2.layoutFuel fxCycleCombined) (Nat.le_refl _),
   (c2_layout_terminates_unique_total fxCycleCombined).2.1,
   (c2_layout_terminates_unique_total fxCycleCombined).2.2.2.2 2
      (combineOne (fun _ => 0) none fxUnreachedZ) rfl (by decide)⟩

/-! ## C6: behavior when the start state is missing -/

/-- A name matching no state in the map looks up to nothing. -/
theorem lookupState_eq_none (m : List CombinedWorkflowState) (n : String)
    (h : ∀ s ∈ m, s.name ≠ n) : V2.lookupState m n = none := by
  unfold V2.lookupState
  suffices hgen : ∀ acc : Option CombinedWorkflowState,
      m.foldl (fun acc s => if s.name == n then some s else acc) acc = acc by
    exact hgen none
  induction m with
  | nil => intro acc; rfl
  | cons s rest ih =>
      intro acc
      have hs : (s.name == n) = false := by
        simpa using h s (List.mem_cons_self s rest)
      rw [List.foldl_cons]
      simp only [hs, Bool.false_eq_true, if_false]
      exact ih (fun e he => h e (List.mem_cons_of_mem s he)) acc

/-- C6 (amended): when the declared start state names no merged state, the
layout call does not fail — it proceeds with an empty traversal, and the
node loop still produces one node per state, every one at its fallback
position `(index × 400, 0)`; no truncation and no error occur. -/
theorem c6_missing_start_fallback (combined : CombinedWorkflowData)
    (h : ∀ s ∈ combined.states, s.name ≠ combined.startState) :
    (V2.layoutRun combined).positions = [] ∧
    V2.nodePositions combined
      = combined.states.enum.map (fun p => (p.2.name, (400 * p.1, 0))) ∧
    (V2.nodePositions combined).length = combined.states.length := by
  have hlook : V2.lookupState combined.states combined.startState = none :=
    lookupState_eq_none combined.states combined.startState h
  have h1 : V2.layoutRun combined = ⟨[], []⟩ := by
    unfold V2.layoutRun V2.layoutFuel
    simp only [V2.layoutLoop]
    rw [if_neg (List.not_mem_nil combined.startState)]
    rw [hlook]
  refine ⟨by rw [h1], ?_, by simp [V2.nodePositions, List.enum_length]⟩
  unfold V2.nodePositions
  rw [h1]
  rfl

/-- A definition whose `start` names no declared state. -/
def fxNoStartDef : WorkflowDefinition :=
  { version := "1.0", specVersion := "0.8", id := "ns", name := "ns",
    description := "", start := "Missing",
    states := [{ name := "A", type := "operation", transition := none,
                 dataConditions := none, defaultCondition := none,
                 onErrors := none, endFlag := true },
               { name := "B", type := "operation", transition := none,
                 dataConditions := none, defaultCondition := none,
                 onErrors := none, endFlag := true }] }

/-- The missing-start definition merged with an absent trace. -/
def fxNoStartCombined : CombinedWorkflowData :=
  combineWorkflowData (fun _ => 0) fxNoStartDef none

/-- Counterexample to C6 as stated: with a start state naming no merged
state, the embedded layout raises nothing and is not cut short — it returns
an ordinary, complete result (an empty position map, then one fallback
node position per state); no `LayoutError` exists anywhere in the code. -/
theorem c6_counterexample :
    (∀ s ∈ fxNoStartCombined.states, s.name ≠ fxNoStartCombined.startState) ∧
    (V2.layoutRun fxNoStartCombined).positions = [] ∧
    V2.nodePositions fxNoStartCombined = [("A", 0, 0), ("B", 400, 0)] ∧
    (V2.nodePositions fxNoStartCombined).length = fxNoStartCombined.states.length :=
  ⟨by decide, rfl, rfl, rfl⟩

/-- Witness for C6 (amended) at the concrete missing-start fixture. -/
theorem c6_missing_start_fallback_witness :
    (V2.layoutRun fxNoStartCombined).positions = [] ∧
    V2.nodePositions fxNoStartCombined
      = fxNoStartCombined.states.enum.map (fun p => (p.2.name, (400 * p.1, 0))) ∧
    (V2.nodePositions fxNoStartCombined).length = fxNoStartCombined.states.length :=
  c6_missing_start_fallback fxNoStartCombined (by decide)
